import Mathlib

/-
Verification of the concurrent-counter fragment of the repository
(src/8_Concurrency_in_Rust.rs), the only component covered by the spec.

The Rust program:
  * creates `Arc::new(Mutex::new(0))`,
  * spawns 10 threads, each of whose closure runs
      `let mut num = counter.lock().unwrap(); *num += 1; *num *= 2;`
  * joins every handle (`handle.join().unwrap()`),
  * and finally prints `*counter.lock().unwrap()`.

Embedding. The mutex serializes the critical sections, so a run of the
program is abstracted by a trace of atomic events: `spawn i` (thread i is
created), `crit i` (thread i executes its whole critical section while
holding the lock), `joined i` (the driver consumes thread i's handle), and
`readEv` (the driver's final locked read). A trace is legal when it is a
permutation of exactly these events and respects the orderings the code
enforces: a thread runs after it is spawned, `join` returns only after the
thread's closure has finished, and the final read happens after every join
(the join loop precedes the `println!`). The counter value along a trace is
obtained by folding the critical-section body over the `crit` events.
The generic driver `run(worker_count, update)` of the spec (§4.2) exists
only as the concrete instance `worker_count = 10`,
`update = x -> (x + 1) * 2` in the source; the trace model keeps
`N` and the update `f` as parameters, following the spec's generalization.
-/

namespace StrictlyRust

/-- The body of the worker's critical section
(src/8_Concurrency_in_Rust.rs lines 39-41): `*num += 1; *num *= 2;`
as a transformation of the locked value. -/
def critBody (num : Int) : Int :=
  let num := num + 1
  let num := num * 2
  num

/-- The whole worker closure (lines 38-42): the new counter value together
with the closure's return value, which is the unit value. -/
def workerClosure (num : Int) : Int × Unit :=
  (critBody num, ())

/-- Atomic events of a run: thread `i` is spawned, thread `i` executes its
critical section (atomic because the mutex serializes it), the driver joins
thread `i`, and the driver performs its final locked read. -/
inductive Ev : Type
  | spawn (i : Nat)
  | crit (i : Nat)
  | joined (i : Nat)
  | readEv
  deriving DecidableEq

/-- Whether an event is a critical-section execution. -/
def isCrit : Ev → Bool
  | Ev.crit _ => true
  | _ => false

/-- The multiset of events of a run with `N` workers (given as one canonical
list; legality of a trace only requires being a permutation of it). -/
def allEvents : Nat → List Ev
  | 0 => [Ev.readEv]
  | n + 1 => Ev.spawn n :: Ev.crit n :: Ev.joined n :: allEvents n

/-- `a` occurs before `b` in trace `t` (positions of first occurrences;
legal traces have no duplicates, being permutations of `allEvents N`). -/
def precedes (t : List Ev) (a b : Ev) : Prop :=
  a ∈ t ∧ b ∈ t ∧ t.indexOf a < t.indexOf b

/-- A legal trace of the program with `N` workers: a permutation of the
events of the run obeying the orderings the code enforces — each thread's
critical section runs after its spawn (`thread::spawn`), each join returns
only after that thread's closure finished (`handle.join()`), and the final
read (the `println!`) happens after the whole join loop. Which interleaving
of distinct workers occurs is unconstrained, as the scheduler is. -/
def legalTrace (N : Nat) (t : List Ev) : Prop :=
  t.Perm (allEvents N) ∧
  ∀ i, i < N →
    precedes t (Ev.spawn i) (Ev.crit i) ∧
    precedes t (Ev.crit i) (Ev.joined i) ∧
    precedes t (Ev.joined i) Ev.readEv

/-- The counter value after a trace, starting from `v`, when every worker's
critical section applies `f`: each `crit` event applies `f` once, all other
events leave the counter unchanged. -/
def traceValue (f : Int → Int) : Int → List Ev → Int
  | v, [] => v
  | v, e :: rest => traceValue f (if isCrit e then f v else v) rest

/-- Number of critical-section events in a trace. -/
def critCount (t : List Ev) : Nat :=
  t.countP (fun e => isCrit e)

/-- Sequential application of a list of update functions, left to right. -/
def applySeq (fs : List (Int → Int)) (v : Int) : Int :=
  fs.foldl (fun a g => g a) v

/-- `v` is reachable from `v0` by `N` serial applications of `f` in some
order: some permutation of the `N` copies of `f`, applied sequentially,
yields `v`. -/
def reachable (f : Int → Int) (N : Nat) (v0 v : Int) : Prop :=
  ∃ fs : List (Int → Int), fs.Perm (List.replicate N f) ∧ applySeq fs v0 = v

/-- 32-bit signed wrap-around, the release-mode overflow behavior of the
`i32` arithmetic in the source. -/
def wrapI32 (x : Int) : Int :=
  (x + 2 ^ 31) % 2 ^ 32 - 2 ^ 31

/-- The critical-section body with each `i32` operation wrapping:
`*num += 1` then `*num *= 2` performed in wrap-around arithmetic. -/
def critBodyW (v : Int) : Int :=
  wrapI32 (wrapI32 (v + 1) * 2)

/-! ### Error-path model (lines 39 and 47: the two `.unwrap()` calls) -/

/-- Result of `counter.lock()` (line 39): `ok` with the protected value, or
`error` when the mutex is poisoned by a previous panicking holder. -/
def lockCounter (poisoned : Bool) (v : Int) : Except Unit Int :=
  if poisoned then Except.error () else Except.ok v

/-- Rust's `Result::unwrap`: the value on `Ok`, a panic on `Err`
(modelled as `none`). -/
def unwrapE {α : Type} : Except Unit α → Option α
  | Except.ok a => some a
  | Except.error _ => none

/-- One worker's body (lines 38-42): `counter.lock().unwrap()` followed by
the critical section; `none` means the worker thread panics. -/
def workerBody (poisoned : Bool) (v : Int) : Option Int :=
  (unwrapE (lockCounter poisoned v)).map critBody

/-- `handle.join()`: `ok` when the worker's closure completed, `error`
when the worker panicked. -/
def joinWorker (workerOutcome : Option Int) : Except Unit Int :=
  match workerOutcome with
  | some v => Except.ok v
  | none => Except.error ()

/-- The driver's treatment of one handle (line 47): `join(...).unwrap()`,
which panics the main thread — crashing the process — on `Err`. -/
def driverJoinStep (workerOutcome : Option Int) : Option Int :=
  unwrapE (joinWorker workerOutcome)

/-- The driver's observable outcome on a one-worker run whose lock may be
poisoned: `some v` is a printed result, `none` is a process-aborting
panic. -/
def mainOutcome (poisoned : Bool) : Option Int :=
  driverJoinStep (workerBody poisoned 0)

/-! ### Helper lemmas -/

instance (N : Nat) (t : List Ev) : Decidable (legalTrace N t) := by
  unfold legalTrace precedes
  infer_instance

theorem traceValue_eq_iterate (f : Int → Int) (t : List Ev) :
    ∀ v : Int, traceValue f v t = f^[critCount t] v := by
  induction t with
  | nil => intro v; simp [traceValue, critCount]
  | cons e rest ih =>
      intro v
      cases h : isCrit e
      · simp [traceValue, critCount, List.countP_cons, h]
        simpa [critCount] using ih v
      · simp [traceValue, critCount, List.countP_cons, h,
          Function.iterate_succ_apply]
        simpa [critCount] using ih (f v)

theorem critCount_allEvents (N : Nat) : critCount (allEvents N) = N := by
  induction N with
  | zero => simp [allEvents, critCount, isCrit]
  | succ n ih =>
      simp [allEvents, critCount, List.countP_cons, isCrit] at *
      omega

theorem critCount_of_legal {N : Nat} {t : List Ev} (h : legalTrace N t) :
    critCount t = N := by
  have hp := h.1
  have := hp.countP_eq (fun e => isCrit e)
  unfold critCount
  rw [this]
  exact critCount_allEvents N

theorem traceValue_of_legal (f : Int → Int) {N : Nat} {t : List Ev}
    (h : legalTrace N t) (v : Int) : traceValue f v t = f^[N] v := by
  rw [traceValue_eq_iterate, critCount_of_legal h]

theorem applySeq_replicate (f : Int → Int) (N : Nat) :
    ∀ v : Int, applySeq (List.replicate N f) v = f^[N] v := by
  induction N with
  | zero => intro v; simp [applySeq]
  | succ n ih =>
      intro v
      simp only [List.replicate_succ, applySeq, List.foldl_cons]
      rw [show List.foldl (fun a g => g a) (f v) (List.replicate n f)
            = applySeq (List.replicate n f) (f v) from rfl, ih (f v),
          Function.iterate_succ_apply]

theorem iterate_add_one (n : Nat) :
    (fun x : Int => x + 1)^[n] 0 = (n : Int) := by
  induction n with
  | zero => simp
  | succ k ih =>
      rw [Function.iterate_succ_apply']
      rw [ih]
      push_cast
      ring

theorem traceValue_even (t : List Ev) :
    ∀ v : Int, Even v → Even (traceValue critBody v t) := by
  induction t with
  | nil => intro v hv; simpa [traceValue] using hv
  | cons e rest ih =>
      intro v hv
      cases h : isCrit e
      · simp [traceValue, h]
        exact ih v hv
      · simp [traceValue, h]
        exact ih _ ⟨v + 1, by show (v + 1) * 2 = v + 1 + (v + 1); ring⟩

theorem iterate_critBody_bounds :
    ∀ j, j < 11 → 0 ≤ critBody^[j] 0 ∧ critBody^[j] 0 ≤ 2046 := by
  decide

/-! ### Claims -/

/-- C1: for every worker count `N`, running the worker group with the
update `x -> x + 1` from initial value `0` returns exactly `N`, whatever
order the `N` workers' updates are serialized in. -/
theorem run_increment_returns_N (N : Nat) (t : List Ev)
    (h : legalTrace N t) :
    traceValue (fun x => x + 1) 0 t = (N : Int) := by
  rw [traceValue_of_legal _ h, iterate_add_one]

theorem run_increment_returns_N_witness :
    legalTrace 2 (allEvents 2) ∧
      traceValue (fun x => x + 1) 0 (allEvents 2) = (2 : Int) :=
  ⟨by decide, run_increment_returns_N 2 (allEvents 2) (by decide)⟩

/-- C2: for every worker count `N`, update `f` and initial value `v0`, the
final value the driver reads equals `f` applied `N` times to `v0`, and is
reachable by some permutation of the `N` serial applications of `f` — no
lost updates. -/
theorem run_serialization (f : Int → Int) (v0 : Int) (N : Nat)
    (t : List Ev) (h : legalTrace N t) :
    traceValue f v0 t = f^[N] v0 ∧
      reachable f N v0 (traceValue f v0 t) := by
  refine ⟨traceValue_of_legal f h v0, List.replicate N f,
    List.Perm.refl _, ?_⟩
  rw [applySeq_replicate, traceValue_of_legal f h v0]

theorem run_serialization_witness :
    legalTrace 2 (allEvents 2) ∧
      (traceValue critBody 1 (allEvents 2) = critBody^[2] 1 ∧
        reachable critBody 2 1 (traceValue critBody 1 (allEvents 2))) :=
  ⟨by decide, run_serialization critBody 1 2 (allEvents 2) (by decide)⟩

/-- C3: in every legal trace the driver's final read comes after every
worker's join, and hence after every worker's critical section: the read
never overlaps an in-flight update and never happens before all completion
handles are consumed. -/
theorem read_after_barrier (N : Nat) (t : List Ev) (h : legalTrace N t) :
    ∀ i, i < N →
      precedes t (Ev.joined i) Ev.readEv ∧
        precedes t (Ev.crit i) Ev.readEv := by
  intro i hi
  obtain ⟨_, hcj, hjr⟩ := h.2 i hi
  exact ⟨hjr, hcj.1, hjr.2.1, lt_trans hcj.2.2 hjr.2.2⟩

theorem read_after_barrier_witness :
    legalTrace 2 (allEvents 2) ∧
      (precedes (allEvents 2) (Ev.joined 0) Ev.readEv ∧
        precedes (allEvents 2) (Ev.crit 0) Ev.readEv) :=
  ⟨by decide, read_after_barrier 2 (allEvents 2) (by decide) 0 (by decide)⟩

/-- C4: running 10 workers with the code's update `x -> (x + 1) * 2` from
counter value 0 returns a positive integer reachable by 10 sequential
applications of that update in some order. -/
theorem concrete_run_positive_reachable (t : List Ev)
    (h : legalTrace 10 t) :
    0 < traceValue critBody 0 t ∧
      reachable critBody 10 0 (traceValue critBody 0 t) := by
  have hv : traceValue critBody 0 t = 2046 := by
    rw [traceValue_of_legal _ h]; decide
  refine ⟨by rw [hv]; decide, List.replicate 10 critBody,
    List.Perm.refl _, ?_⟩
  rw [applySeq_replicate, hv]
  decide

theorem concrete_run_positive_reachable_witness :
    legalTrace 10 (allEvents 10) ∧
      (0 < traceValue critBody 0 (allEvents 10) ∧
        reachable critBody 10 0 (traceValue critBody 0 (allEvents 10))) :=
  ⟨by decide, concrete_run_positive_reachable (allEvents 10) (by decide)⟩

/-- C5, counterexample: the claim that two serialization orders of the 10
identical updates can produce different final values is false — all 10
workers apply the same function, so every pair of legal traces yields the
same final value. -/
theorem order_sensitivity_false :
    ¬ ∃ t₁ t₂ : List Ev, legalTrace 10 t₁ ∧ legalTrace 10 t₂ ∧
      traceValue critBody 0 t₁ ≠ traceValue critBody 0 t₂ := by
  rintro ⟨t₁, t₂, h₁, h₂, hne⟩
  exact hne (by rw [traceValue_of_legal _ h₁, traceValue_of_legal _ h₂])

/-- C5, amended: with update `x -> (x + 1) * 2`, `N = 10` workers and
initial value 0, the final counter value does not depend on the
serialization order: every pair of legal serializations produces the same
final value, namely 2046. -/
theorem order_insensitive (t₁ t₂ : List Ev)
    (h₁ : legalTrace 10 t₁) (h₂ : legalTrace 10 t₂) :
    traceValue critBody 0 t₁ = traceValue critBody 0 t₂ ∧
      traceValue critBody 0 t₁ = 2046 := by
  rw [traceValue_of_legal _ h₁, traceValue_of_legal _ h₂]
  exact ⟨rfl, by decide⟩

theorem order_insensitive_witness :
    legalTrace 10 (allEvents 10) ∧
      (traceValue critBody 0 (allEvents 10)
          = traceValue critBody 0 (allEvents 10) ∧
        traceValue critBody 0 (allEvents 10) = 2046) :=
  ⟨by decide,
    order_insensitive (allEvents 10) (allEvents 10) (by decide) (by decide)⟩

/-- C6, counterexample: with a poisoned lock the program does not surface a
typed failure — `lock().unwrap()` panics the worker and
`join().unwrap()` panics the driver, so the driver's outcome is a
process-aborting panic (`none`), refuting the claim that the
implementation never crashes on a poisoned lock. -/
theorem poisoned_lock_crashes :
    mainOutcome true = none ∧ ¬ ∀ p : Bool, mainOutcome p ≠ none :=
  ⟨rfl, fun h => h true rfl⟩

/-- C6, amended: the code propagates a poisoned lock and a failed join by
panicking via `unwrap`, not by returning a typed failure: a poisoned lock
makes the worker panic, a panicked worker makes the driver's
`join().unwrap()` panic (crashing the process), and only the unpoisoned
path yields the successful value `critBody v`. -/
theorem unwrap_panics_on_poison (v : Int) :
    workerBody true v = none ∧
    workerBody false v = some (critBody v) ∧
    driverJoinStep (workerBody true v) = none ∧
    mainOutcome true = none :=
  ⟨rfl, rfl, rfl, rfl⟩

/-- C7: the worker's critical section turns a counter value `v` into
`(v + 1) * 2` and the closure returns the unit value (nothing). -/
theorem crit_section_computes (v : Int) :
    workerClosure v = ((v + 1) * 2, ()) :=
  rfl

/-- C8: all 10 workers apply the identical update `x -> (x + 1) * 2`, so
every serialization of the run yields the same final counter value 2046
(= 2 ^ 11 - 2): the printed result is deterministic. -/
theorem deterministic_result (t : List Ev) (h : legalTrace 10 t) :
    traceValue critBody 0 t = 2046 := by
  rw [traceValue_of_legal _ h]
  decide

theorem deterministic_result_witness :
    legalTrace 10 (allEvents 10) ∧
      traceValue critBody 0 (allEvents 10) = 2046 :=
  ⟨by decide, deterministic_result (allEvents 10) (by decide)⟩

/-- C9: the counter starts even (0), the update `x -> (x + 1) * 2` sends
every integer to an even integer, and therefore after any sequence of
completed worker updates the counter value is even. -/
theorem even_invariant :
    (∀ v : Int, Even (critBody v)) ∧
      ∀ t : List Ev, Even (traceValue critBody 0 t) :=
  ⟨fun v => ⟨v + 1, by show (v + 1) * 2 = v + 1 + (v + 1); ring⟩,
    fun t => traceValue_even t 0 ⟨0, by ring⟩⟩

set_option maxRecDepth 8000 in
/-- C10: in the concrete run (10 workers, update `x -> (x + 1) * 2`,
initial 0) every intermediate counter value — at any prefix of any legal
trace — lies in `[0, 2046]`, both intermediate arithmetic results
(`v + 1` and `(v + 1) * 2`) stay strictly inside the signed 32-bit range,
and the run computed with wrapping `i32` arithmetic agrees exactly with
the ideal-integer run. -/
theorem no_overflow (t : List Ev) (h : legalTrace 10 t) :
    (∀ pre suf : List Ev, t = pre ++ suf →
      0 ≤ traceValue critBody 0 pre ∧
      traceValue critBody 0 pre ≤ 2046 ∧
      -(2 ^ 31) ≤ traceValue critBody 0 pre + 1 ∧
      traceValue critBody 0 pre + 1 < 2 ^ 31 ∧
      -(2 ^ 31) ≤ (traceValue critBody 0 pre + 1) * 2 ∧
      (traceValue critBody 0 pre + 1) * 2 < 2 ^ 31) ∧
      traceValue critBodyW 0 t = traceValue critBody 0 t := by
  constructor
  · intro pre suf hsplit
    have hj : critCount pre ≤ 10 := by
      have h10 : critCount t = 10 := critCount_of_legal h
      have : critCount t = critCount pre + critCount suf := by
        rw [hsplit]; unfold critCount; exact List.countP_append _ _ _
      omega
    have hb := iterate_critBody_bounds (critCount pre) (by omega)
    rw [traceValue_eq_iterate]
    refine ⟨hb.1, hb.2, by linarith [hb.1], by linarith [hb.2],
      by linarith [hb.1], by linarith [hb.2]⟩
  · rw [traceValue_of_legal _ h, traceValue_of_legal _ h]
    decide

set_option maxRecDepth 8000 in
theorem no_overflow_witness :
    legalTrace 10 (allEvents 10) ∧
      ((∀ pre suf : List Ev, allEvents 10 = pre ++ suf →
        0 ≤ traceValue critBody 0 pre ∧
        traceValue critBody 0 pre ≤ 2046 ∧
        -(2 ^ 31) ≤ traceValue critBody 0 pre + 1 ∧
        traceValue critBody 0 pre + 1 < 2 ^ 31 ∧
        -(2 ^ 31) ≤ (traceValue critBody 0 pre + 1) * 2 ∧
        (traceValue critBody 0 pre + 1) * 2 < 2 ^ 31) ∧
        traceValue critBodyW 0 (allEvents 10)
          = traceValue critBody 0 (allEvents 10)) :=
  ⟨by decide, no_overflow (allEvents 10) (by decide)⟩

end StrictlyRust
